import Mathlib

/-
Verification of the mc-map-generator service against its specification.

The development shallowly embeds the JavaScript sources:
  - utils.js: generateJobId, isValidSeed, isValidDimension, normalizeDimension, isValidSize;
  - screenshot.js, size-parameterized variant: the crop-parameter computation of
    processImage (cropSized below) and the outcome shapes of generateMap;
  - screenshot.js, superseded 8k-only variant: the dimension-dispatched fixed crop
    parameters of processImage (cropFixed8k below);
  - server.js: the POST /api/generate handler, the completion handlers attached to
    the generateMap promise, the GET /api/status/:jobId handler, and the shared
    mutable state (jobs map, activeJobs counter), modelled as a state machine whose
    events are HTTP submissions and asynchronous job completions.

JavaScript numbers that the code only ever uses at integer values are modelled as
Int or Nat; the single genuinely fractional computation (crop geometry, which
multiplies by 62.5) is modelled over the rationals, where every intermediate value
of the source expression is exactly representable, as it also is in IEEE doubles
for the supported size range.  Math.round on nonnegative values is floor(x + 1/2).

String primitives of JavaScript used by the code (trim, toLowerCase on the ASCII
strings involved, template-literal stringification) are given structurally
recursive Lean equivalents over the character list so that concrete runs of the
model evaluate inside the kernel.
-/

namespace MCMap

/-! ### Kernel-reducible string primitives -/

/-- Whitespace recognised by the model of String.prototype.trim (the ASCII
whitespace characters; the sources only ever trim seed strings). -/
def isJsSpace (c : Char) : Bool :=
  c = ' ' || c = '\t' || c = '\n' || c = '\r' || c = '\x0b' || c = '\x0c'

/-- Model of String.prototype.trim. -/
def trimStr (s : String) : String :=
  String.mk (((s.data.dropWhile isJsSpace).reverse.dropWhile isJsSpace).reverse)

/-- Model of String.prototype.toLowerCase; agrees with the JavaScript function on
the ASCII strings the claims are about. -/
def toLowerCase (s : String) : String := String.mk (s.data.map Char.toLower)

/-! ### utils.js -/

/-- A JavaScript value submitted as the seed: a string, an ordinary number, or NaN.
Other JavaScript values fail isValidSeed in the source just as nanNum does and are
not modelled separately. -/
inductive SeedVal
  | str (s : String)
  | num (n : Int)
  | nanNum
deriving DecidableEq

/-- Template-literal stringification of a seed value, as in the id template of
generateJobId. -/
def seedToString : SeedVal → String
  | .str s => s
  | .num n => toString n
  | .nanNum => "NaN"

/-- utils.js isValidSeed: a string with nonempty trim, or a number that is not NaN.
The argument is an Option because the request body may omit the field. -/
def isValidSeed : Option SeedVal → Bool
  | some (.str s) => (trimStr s).length > 0
  | some (.num _) => true
  | some .nanNum => false
  | none => false

/-- The dimension whitelist of utils.js isValidDimension. -/
def validDimensions : List String := ["overworld", "nether", "end"]

/-- utils.js isValidDimension, applied by server.js to the (string) dimension after
the destructuring default has been applied. -/
def isValidDimension (d : String) : Bool := validDimensions.contains (toLowerCase d)

/-- utils.js normalizeDimension on a string input: lowercase, with the JavaScript
falsy-string fallback to overworld. -/
def normalizeDimension (d : String) : String :=
  let l := toLowerCase d
  if l = "" then "overworld" else l

/-- utils.js isValidSize on an integer input (parseInt of an integer is itself). -/
def isValidSize (n : Int) : Bool := decide (2 ≤ n) && decide (n ≤ 16)

/-- utils.js generateJobId.  Date.now() is an input of the model (the millisecond
timestamp of the submission). -/
def generateJobId (seed : SeedVal) (dim : String) (ts : Nat) : String :=
  "seed-" ++ seedToString seed ++ "-" ++ dim ++ "-" ++ Nat.repr ts

/-! ### Geometry: the crop computations of the two processImage variants -/

/-- The crop rectangle handed to sharp().extract. -/
structure CropParams where
  left : Int
  top : Int
  width : Int
  height : Int
deriving DecidableEq

/-- Math.round for the nonnegative exact values arising in the crop formulas. -/
def jsRound (q : ℚ) : Int := ⌊q + 1/2⌋

/-- processImage of the size-parameterized screenshot.js variant: crop parameters
and final output size.  The source computes them from size alone; the dimension
argument is accepted and ignored, exactly as in the source, which has no
dimension branch. -/
def cropSized (_dimension : String) (size : Nat) : CropParams × Int :=
  let left := jsRound (720 + (16 - (size : ℚ)) * 62.5)
  let top := jsRound (120 + (16 - (size : ℚ)) * 62.5)
  let width := jsRound ((size : ℚ) * 125)
  let height := jsRound ((size : ℚ) * 125)
  (⟨left, top, width, height⟩, width)

/-- processImage of the superseded 8k-only screenshot.js variant: fixed crop
parameters and final size, dispatched on the dimension. -/
def cropFixed8k (dimension : String) : CropParams × Int :=
  if dimension = "nether" then (⟨720, 120, 2000, 2000⟩, 1000)
  else (⟨1220, 620, 1000, 1000⟩, 1000)

/-! ### server.js: state and handlers -/

/-- One entry of the in-memory jobs map.  The fields mirror the object literals of
server.js and the result objects of generateMap; fields a given write does not
mention stay at their previous value, as with the JavaScript spread merge.
Metadata subfields (file size, timestamps read back from disk) are not modelled;
no claim mentions them. -/
structure JobRecord where
  status : String
  seed : Option SeedVal := none
  dimension : Option String := none
  createdAt : Option Nat := none
  progress : Option String := none
  completedAt : Option Nat := none
  imageUrl : Option String := none
  filename : Option String := none
  error : Option String := none
  message : Option String := none
  retryable : Option Bool := none
deriving DecidableEq

/-- The body of a POST /api/generate request, with the fields the handler reads.
The size field is carried so that its (non-)use by the handler can be stated. -/
structure SubmitRequest where
  seed : Option SeedVal
  dimension : Option String
  size : Option Int
deriving DecidableEq

/-- The response of the POST /api/generate handler: the three error responses and
the immediate success response carrying the job id. -/
inductive GenerateResponse
  | invalidSeed
  | invalidDimension
  | tooManyJobs
  | accepted (jobId : String)
deriving DecidableEq

/-- The shared mutable state of server.js: the jobs Map (an insertion-ordered
association list, as a JavaScript Map is), the activeJobs counter, and the job ids
of the generateMap promises that have not yet settled (each admitted submission
appends exactly one). -/
structure ServerState where
  jobs : List (String × JobRecord)
  activeJobs : Int
  pending : List String
deriving DecidableEq

/-- The state at server start. -/
def initState : ServerState := ⟨[], 0, []⟩

/-- Map.prototype.get. -/
def mapGet : List (String × JobRecord) → String → Option JobRecord
  | [], _ => none
  | (k', v') :: rest, k => if k' = k then some v' else mapGet rest k

/-- Map.prototype.set: replace in place or append. -/
def mapSet : List (String × JobRecord) → String → JobRecord → List (String × JobRecord)
  | [], k, v => [(k, v)]
  | (k', v') :: rest, k, v =>
      if k' = k then (k, v) :: rest else (k', v') :: mapSet rest k v

/-- The job record server.js stores on admission. -/
def newRecord (sv : SeedVal) (nd : String) (ts : Nat) : JobRecord :=
  { status := "processing", seed := some sv, dimension := some nd,
    createdAt := some ts, progress := some "Starting map generation..." }

/-- The POST /api/generate handler of server.js: validate seed, validate dimension,
check the concurrency ceiling, then create the processing record, increment the
counter, launch generateMap (one new pending completion) and answer immediately. -/
def handleGenerate (maxJobs : Nat) (s : ServerState) (req : SubmitRequest) (ts : Nat) :
    GenerateResponse × ServerState :=
  if !(isValidSeed req.seed) then (.invalidSeed, s)
  else
    let dim0 := req.dimension.getD "overworld"
    if !(isValidDimension dim0) then (.invalidDimension, s)
    else if (maxJobs : Int) ≤ s.activeJobs then (.tooManyJobs, s)
    else
      let sv := req.seed.getD (.str "")
      let nd := normalizeDimension dim0
      let jid := generateJobId sv nd ts
      (.accepted jid,
       ⟨mapSet s.jobs jid (newRecord sv nd ts), s.activeJobs + 1, s.pending ++ [jid]⟩)

/-- How a generateMap promise settles.  The function body of generateMap returns a
success object or, from its catch block, a failure object with retryable true; a
rejection of the promise (reaching the .catch handler of server.js) remains
possible only when the failure path itself throws, and is modelled as the third
shape. -/
inductive GenOutcome
  | ok (imageUrl filename : String)
  | fail (message : String)
  | rejectedPromise (message : String)
deriving DecidableEq

/-- The record written by the completion handlers of server.js.  For ok and fail
outcomes this is the .then branch: the old record spread-merged with the result
object plus completedAt.  For a rejected promise it is the .catch branch, which
sets status, error, message and completedAt but no retryable flag.  When the old
record is absent the spread starts from the empty object, as in JavaScript. -/
def completionRecord (old : Option JobRecord) (out : GenOutcome) (ts : Nat) : JobRecord :=
  let base := old.getD { status := "" }
  match out with
  | .ok u f =>
      { base with status := "ready", imageUrl := some u, filename := some f,
                  completedAt := some ts }
  | .fail m =>
      { base with status := "failed", error := some "GENERATION_FAILED",
                  message := some m, retryable := some true, completedAt := some ts }
  | .rejectedPromise m =>
      { base with status := "failed", error := some "GENERATION_FAILED",
                  message := some m, completedAt := some ts }

/-- Settling of the idx-th pending generateMap promise: write the merged record,
decrement activeJobs, retire the promise.  A promise settles at most once, which
the removal from pending enforces. -/
def completeStep (s : ServerState) (idx : Nat) (out : GenOutcome) (ts : Nat) : ServerState :=
  match s.pending[idx]? with
  | none => s
  | some jid =>
      ⟨mapSet s.jobs jid (completionRecord (mapGet s.jobs jid) out ts),
       s.activeJobs - 1, s.pending.eraseIdx idx⟩

/-- The events driving the server state: an HTTP submission, or the settling of
one in-flight generation. -/
inductive Event
  | submit (req : SubmitRequest) (ts : Nat)
  | complete (idx : Nat) (out : GenOutcome) (ts : Nat)

/-- One step of the server. -/
def step (maxJobs : Nat) (s : ServerState) (e : Event) : ServerState :=
  match e with
  | .submit req ts => (handleGenerate maxJobs s req ts).2
  | .complete idx out ts => completeStep s idx out ts

/-- The state after a sequence of events from server start. -/
def runEvents (maxJobs : Nat) (evs : List Event) : ServerState :=
  evs.foldl (step maxJobs) initState

/-- States the server can be in. -/
def Reachable (maxJobs : Nat) (s : ServerState) : Prop :=
  ∃ evs : List Event, runEvents maxJobs evs = s

/-- The status field of the record stored for a job id, when the record exists. -/
def statusOf (s : ServerState) (jid : String) : Option String :=
  (mapGet s.jobs jid).map (·.status)

/-- The response of GET /api/status/:jobId, with the fields the conditional
spreads of server.js include for each status.  The metadata enrichment read from
disk for ready jobs is I/O and not modelled; no claim mentions it. -/
inductive StatusResponse
  | notFound
  | found (status : String) (imageUrl progress error message : Option String)
      (retryable : Option Bool)
deriving DecidableEq

/-- The GET /api/status/:jobId handler of server.js. -/
def handleStatus (s : ServerState) (jid : String) : StatusResponse :=
  match mapGet s.jobs jid with
  | none => .notFound
  | some j =>
      .found j.status
        (if j.status = "ready" then j.imageUrl else none)
        (if j.status = "processing" then j.progress else none)
        (if j.status = "failed" then j.error else none)
        (if j.status = "failed" then j.message else none)
        (if j.status = "failed" then j.retryable else none)

/-! ### Derived definitions used by the verification -/

/-- The reachable-state invariant: activeJobs equals the number of unsettled
generateMap promises, never exceeds the ceiling, and every pending promise has
a record in the jobs map. -/
def StateInv (maxJobs : Nat) (s : ServerState) : Prop :=
  s.activeJobs = (s.pending.length : Int) ∧ s.activeJobs ≤ (maxJobs : Int) ∧
    ∀ j ∈ s.pending, (mapGet s.jobs j).isSome = true

/-- Numeric value of a decimal digit character. -/
def charVal (c : Char) : Nat := c.toNat - 48

/-- Numeric value of a decimal digit string. -/
def digitsVal (ds : List Char) : Nat := ds.foldl (fun a c => 10 * a + charVal c) 0

/-- A well-formed submission: seed 12345, dimension overworld, no size field. -/
def reqA : SubmitRequest := ⟨some (.str "12345"), some "overworld", none⟩

/-- The job id generateJobId produces for reqA at millisecond timestamp 1000. -/
def jidA : String := "seed-12345-overworld-1000"

/-! ### Helper lemmas about the jobs map -/

theorem mapGet_mapSet_self (m : List (String × JobRecord)) (k : String) (v : JobRecord) :
    mapGet (mapSet m k v) k = some v := by
  induction m with
  | nil => simp [mapGet, mapSet]
  | cons p rest ih =>
    by_cases h : p.1 = k
    · simp [mapGet, mapSet, h]
    · simp [mapGet, mapSet, h, ih]

theorem mapGet_mapSet_ne (m : List (String × JobRecord)) (k k' : String) (v : JobRecord)
    (h : k ≠ k') : mapGet (mapSet m k v) k' = mapGet m k' := by
  induction m with
  | nil => simp [mapGet, mapSet, h]
  | cons p rest ih =>
    by_cases hp : p.1 = k
    · simp [mapGet, mapSet, hp, h, ih]
    · by_cases hp' : p.1 = k'
      · simp [mapGet, mapSet, hp, hp', Ne.symm h]
      · simp [mapGet, mapSet, hp, hp', ih]

theorem isSome_mapGet_mapSet (m : List (String × JobRecord)) (k k' : String) (v : JobRecord)
    (h : (mapGet m k').isSome = true) : (mapGet (mapSet m k v) k').isSome = true := by
  by_cases hk : k = k'
  · subst hk; rw [mapGet_mapSet_self]; rfl
  · rwa [mapGet_mapSet_ne m k k' v hk]

/-! ### The reachable-state invariant -/

theorem stateInv_init (maxJobs : Nat) : StateInv maxJobs initState := by
  refine ⟨rfl, ?_, ?_⟩
  · exact Int.ofNat_nonneg maxJobs
  · intro j hj; simp [initState] at hj

theorem stateInv_step (maxJobs : Nat) (s : ServerState) (e : Event)
    (h : StateInv maxJobs s) : StateInv maxJobs (step maxJobs s e) := by
  obtain ⟨hlen, hle, hpend⟩ := h
  cases e with
  | submit req ts =>
    simp only [step, handleGenerate]
    by_cases h1 : isValidSeed req.seed
    · by_cases h2 : isValidDimension (req.dimension.getD "overworld")
      · by_cases h3 : (maxJobs : Int) ≤ s.activeJobs
        · simpa [h1, h2, h3] using ⟨hlen, hle, hpend⟩
        · simp only [h1, h2, h3, Bool.not_true, Bool.false_eq_true, if_false, if_true,
            Bool.not_eq_true']
          refine ⟨?_, ?_, ?_⟩
          · simp [hlen]
          · simp only []
            omega
          · intro j hj
            simp only [List.mem_append, List.mem_singleton] at hj
            rcases hj with hj | hj
            · exact isSome_mapGet_mapSet _ _ _ _ (hpend j hj)
            · subst hj; rw [mapGet_mapSet_self]; rfl
      · simpa [h1, h2] using ⟨hlen, hle, hpend⟩
    · simpa [h1] using ⟨hlen, hle, hpend⟩
  | complete idx out ts =>
    simp only [step, completeStep]
    cases hidx : s.pending[idx]? with
    | none => exact ⟨hlen, hle, hpend⟩
    | some jid =>
      have hlt : idx < s.pending.length := by
        by_contra hcon
        rw [List.getElem?_eq_none (by omega)] at hidx
        exact Option.noConfusion hidx
      refine ⟨?_, ?_, ?_⟩
      · have : (s.pending.eraseIdx idx).length = s.pending.length - 1 :=
          List.length_eraseIdx_of_lt hlt
        simp only [this]
        omega
      · simp only []
        omega
      · intro j hj
        have hj' : j ∈ s.pending := List.eraseIdx_subset s.pending idx hj
        exact isSome_mapGet_mapSet _ _ _ _ (hpend j hj')

theorem stateInv_foldl (maxJobs : Nat) (evs : List Event) (s0 : ServerState)
    (h : StateInv maxJobs s0) : StateInv maxJobs (evs.foldl (step maxJobs) s0) := by
  induction evs generalizing s0 with
  | nil => exact h
  | cons e rest ih => exact ih _ (stateInv_step maxJobs s0 e h)

theorem reachable_stateInv (maxJobs : Nat) (s : ServerState) (h : Reachable maxJobs s) :
    StateInv maxJobs s := by
  obtain ⟨evs, rfl⟩ := h
  exact stateInv_foldl maxJobs evs initState (stateInv_init maxJobs)

/-! ### Decimal printing is injective

Needed to settle the job-id uniqueness claim: Nat.repr is injective, and appending
to a common prefix is cancellative on strings. -/

theorem charVal_digitChar : ∀ d, d < 10 → charVal (Nat.digitChar d) = d := by decide

theorem digitsVal_foldl_acc (ds : List Char) : ∀ a : Nat,
    ds.foldl (fun a c => 10 * a + charVal c) a = a * 10 ^ ds.length + digitsVal ds := by
  induction ds with
  | nil => intro a; simp [digitsVal]
  | cons c tl ih =>
    intro a
    simp only [List.foldl_cons, List.length_cons, digitsVal] at *
    rw [ih (10 * a + charVal c), ih (10 * 0 + charVal c)]
    ring

theorem toDigitsCore_append (fuel n : Nat) (h : n < fuel) (ds : List Char) :
    Nat.toDigitsCore 10 fuel n ds = Nat.toDigitsCore 10 fuel n [] ++ ds := by
  induction fuel generalizing n ds with
  | zero => omega
  | succ fuel ih =>
    simp only [Nat.toDigitsCore]
    by_cases h10 : n / 10 = 0
    · simp [h10]
    · have hlt : n / 10 < fuel := by
        have h1 : n / 10 < n := Nat.div_lt_self (by omega) (by omega)
        omega
      simp only [h10, if_false]
      rw [ih (n / 10) hlt ((n % 10).digitChar :: ds), ih (n / 10) hlt [(n % 10).digitChar],
        List.append_assoc]
      rfl

theorem digitsVal_toDigitsCore (fuel n : Nat) (h : n < fuel) :
    digitsVal (Nat.toDigitsCore 10 fuel n []) = n := by
  induction fuel generalizing n with
  | zero => omega
  | succ fuel ih =>
    simp only [Nat.toDigitsCore]
    by_cases h10 : n / 10 = 0
    · simp only [h10, if_true, digitsVal, List.foldl_cons, List.foldl_nil]
      rw [charVal_digitChar (n % 10) (Nat.mod_lt n (by omega))]
      omega
    · have hlt : n / 10 < fuel := by
        have h1 : n / 10 < n := Nat.div_lt_self (by omega) (by omega)
        omega
      simp only [h10, if_false]
      rw [toDigitsCore_append fuel (n / 10) hlt]
      unfold digitsVal
      rw [List.foldl_append]
      simp only [List.foldl_cons, List.foldl_nil]
      rw [show (Nat.toDigitsCore 10 fuel (n / 10) []).foldl (fun a c => 10 * a + charVal c) 0
            = digitsVal (Nat.toDigitsCore 10 fuel (n / 10) []) from rfl]
      rw [ih (n / 10) hlt, charVal_digitChar (n % 10) (Nat.mod_lt n (by omega))]
      omega

theorem natRepr_inj {m n : Nat} (h : Nat.repr m = Nat.repr n) : m = n := by
  have hm := digitsVal_toDigitsCore (m + 1) m (by omega)
  have hn := digitsVal_toDigitsCore (n + 1) n (by omega)
  unfold Nat.repr Nat.toDigits at h
  have hdata : Nat.toDigitsCore 10 (m + 1) m [] = Nat.toDigitsCore 10 (n + 1) n [] := by
    have h2 := congrArg String.data h
    simpa [List.asString] using h2
  rw [hdata, hn] at hm
  omega

theorem string_append_left_cancel {p q r : String} (h : p ++ q = p ++ r) : q = r := by
  have h2 := congrArg String.data h
  simp only [String.data_append] at h2
  have h3 := List.append_cancel_left h2
  cases q; cases r
  exact congrArg String.mk h3

/-! ### Characterizations of the generate handler -/

theorem handleGenerate_full (maxJobs : Nat) (s : ServerState) (req : SubmitRequest) (ts : Nat)
    (h1 : isValidSeed req.seed = true)
    (h2 : isValidDimension (req.dimension.getD "overworld") = true)
    (h3 : (maxJobs : Int) ≤ s.activeJobs) :
    handleGenerate maxJobs s req ts = (.tooManyJobs, s) := by
  simp [handleGenerate, h1, h2, h3]

theorem handleGenerate_accepted (maxJobs : Nat) (s : ServerState) (req : SubmitRequest) (ts : Nat)
    (h1 : isValidSeed req.seed = true)
    (h2 : isValidDimension (req.dimension.getD "overworld") = true)
    (h3 : s.activeJobs < (maxJobs : Int)) :
    handleGenerate maxJobs s req ts =
      (.accepted (generateJobId (req.seed.getD (.str ""))
          (normalizeDimension (req.dimension.getD "overworld")) ts),
       ⟨mapSet s.jobs
          (generateJobId (req.seed.getD (.str ""))
            (normalizeDimension (req.dimension.getD "overworld")) ts)
          (newRecord (req.seed.getD (.str ""))
            (normalizeDimension (req.dimension.getD "overworld")) ts),
        s.activeJobs + 1,
        s.pending ++ [generateJobId (req.seed.getD (.str ""))
          (normalizeDimension (req.dimension.getD "overworld")) ts]⟩) := by
  simp [handleGenerate, h1, h2, not_le.mpr h3]

/-! ### Claims about the job lifecycle and admission control -/

/-- C3: in every reachable state the in-flight counter lies in the interval from 0
to the ceiling; a valid submission arriving at a full server is answered with the
429 response and leaves the state (jobs map and counter) untouched; and once one
in-flight job completes, exactly one further valid submission is admitted, after
which the server is full again and rejects the next valid submission. -/
theorem c3_admission_bounds (maxJobs : Nat) (s : ServerState)
    (h : Reachable maxJobs s) :
    (0 ≤ s.activeJobs ∧ s.activeJobs ≤ (maxJobs : Int))
    ∧ (∀ (req : SubmitRequest) (ts : Nat), isValidSeed req.seed = true →
        isValidDimension (req.dimension.getD "overworld") = true →
        (maxJobs : Int) ≤ s.activeJobs →
        handleGenerate maxJobs s req ts = (.tooManyJobs, s))
    ∧ (∀ (idx : Nat) (out : GenOutcome) (ts : Nat) (req : SubmitRequest) (ts2 : Nat),
        s.activeJobs = (maxJobs : Int) → idx < s.pending.length →
        isValidSeed req.seed = true →
        isValidDimension (req.dimension.getD "overworld") = true →
        (completeStep s idx out ts).activeJobs = (maxJobs : Int) - 1
        ∧ ∃ jid st1,
            handleGenerate maxJobs (completeStep s idx out ts) req ts2 = (.accepted jid, st1)
            ∧ st1.activeJobs = (maxJobs : Int)
            ∧ ∀ (req2 : SubmitRequest) (ts3 : Nat), isValidSeed req2.seed = true →
                isValidDimension (req2.dimension.getD "overworld") = true →
                handleGenerate maxJobs st1 req2 ts3 = (.tooManyJobs, st1)) := by
  obtain ⟨hlen, hle, -⟩ := reachable_stateInv maxJobs s h
  refine ⟨⟨by omega, hle⟩, ?_, ?_⟩
  · intro req ts h1 h2 h3
    exact handleGenerate_full maxJobs s req ts h1 h2 h3
  · intro idx out ts req ts2 hfull hidx h1 h2
    have hjid : s.pending[idx]? = some s.pending[idx] := List.getElem?_eq_getElem hidx
    have hact : (completeStep s idx out ts).activeJobs = (maxJobs : Int) - 1 := by
      simp [completeStep, hjid, hfull]
    refine ⟨hact, ?_⟩
    have hroom : (completeStep s idx out ts).activeJobs < (maxJobs : Int) := by omega
    rw [handleGenerate_accepted maxJobs (completeStep s idx out ts) req ts2 h1 h2 hroom]
    refine ⟨_, _, rfl, ?_, ?_⟩
    · show (completeStep s idx out ts).activeJobs + 1 = (maxJobs : Int)
      omega
    intro req2 ts3 h1' h2'
    apply handleGenerate_full maxJobs _ req2 ts3 h1' h2'
    simp only []
    omega

/-- Witness for C3: with ceiling 1 and one admitted job, a further valid
submission is rejected with the 429 response and the state is unchanged. -/
theorem c3_witness :
    handleGenerate 1 (runEvents 1 [.submit reqA 1000]) reqA 2000
      = (.tooManyJobs, runEvents 1 [.submit reqA 1000]) :=
  (c3_admission_bounds 1 (runEvents 1 [.submit reqA 1000])
      ⟨[.submit reqA 1000], rfl⟩).2.1 reqA 2000 (by decide) (by decide) (by decide)

/-! ### Claims about the geometry calculator -/

/-- C1: for overworld and end and every supported size 2 through 16, the
size-parameterized crop computation returns left = round(720 + (16 - s) * 62.5),
top = round(120 + (16 - s) * 62.5) and width = height = outputSize =
round(s * 125); the equalities hold exactly at s = 2 (1595, 995, 250) and at
s = 16 the rectangle is the reference anchor (720, 120, 2000). -/
theorem c1_sized_crop_formula (d : String) (hd : d = "overworld" ∨ d = "end")
    (s : Nat) (h2 : 2 ≤ s) (h16 : s ≤ 16) :
    cropSized d s =
      (⟨jsRound (720 + (16 - (s : ℚ)) * 62.5), jsRound (120 + (16 - (s : ℚ)) * 62.5),
        jsRound ((s : ℚ) * 125), jsRound ((s : ℚ) * 125)⟩, jsRound ((s : ℚ) * 125))
    ∧ (cropSized d s).1.width = (cropSized d s).1.height
    ∧ (cropSized d s).1.height = (cropSized d s).2
    ∧ cropSized d 2 = (⟨1595, 995, 250, 250⟩, 250)
    ∧ cropSized d 16 = (⟨720, 120, 2000, 2000⟩, 2000) := by
  refine ⟨rfl, rfl, rfl, ?_, ?_⟩
  · simp only [cropSized, jsRound]
    norm_num [Prod.ext_iff, CropParams.mk.injEq]
  · simp only [cropSized, jsRound]
    norm_num [Prod.ext_iff, CropParams.mk.injEq]

/-- Witness for C1 at dimension overworld and size 8. -/
theorem c1_witness :
    (("overworld" : String) = "overworld" ∨ ("overworld" : String) = "end")
    ∧ 2 ≤ 8 ∧ 8 ≤ 16
    ∧ (cropSized "overworld" 8 =
        (⟨jsRound (720 + (16 - ((8 : Nat) : ℚ)) * 62.5),
          jsRound (120 + (16 - ((8 : Nat) : ℚ)) * 62.5),
          jsRound (((8 : Nat) : ℚ) * 125), jsRound (((8 : Nat) : ℚ) * 125)⟩,
          jsRound (((8 : Nat) : ℚ) * 125))
      ∧ (cropSized "overworld" 8).1.width = (cropSized "overworld" 8).1.height
      ∧ (cropSized "overworld" 8).1.height = (cropSized "overworld" 8).2
      ∧ cropSized "overworld" 2 = (⟨1595, 995, 250, 250⟩, 250)
      ∧ cropSized "overworld" 16 = (⟨720, 120, 2000, 2000⟩, 2000)) :=
  ⟨Or.inl rfl, by norm_num, by norm_num,
    c1_sized_crop_formula "overworld" (Or.inl rfl) 8 (by norm_num) (by norm_num)⟩

/-- C2 counterexample: in the size-parameterized variant the nether crop is not
constant in the requested size; at sizes 2 and 16 the computed rectangles and
output sizes differ. -/
theorem c2_counterexample : cropSized "nether" 2 ≠ cropSized "nether" 16 := by
  intro h
  have h2 : (cropSized "nether" 2).2 = (cropSized "nether" 16).2 := congrArg Prod.snd h
  simp only [cropSized, jsRound] at h2
  norm_num at h2

/-- C2 amended: the size-parameterized crop computation applies the same size
formula to every dimension, nether included, so its nether output varies with
size exactly as the overworld output does; the fixed nether rectangle
(720, 120, 2000 x 2000, output 1000) exists only in the superseded 8k-only
variant. -/
theorem c2_amended :
    (∀ (d : String) (sz : Nat), cropSized "nether" sz = cropSized d sz)
    ∧ cropFixed8k "nether" = (⟨720, 120, 2000, 2000⟩, 1000) :=
  ⟨fun _ _ => rfl, rfl⟩

/-- C8: the size-parameterized crop computation at size 8 agrees exactly with the
8k-only variant for overworld and end: left 1220, top 620, width and height 1000,
final output size 1000. -/
theorem c8_refinement :
    cropSized "overworld" 8 = cropFixed8k "overworld"
    ∧ cropSized "end" 8 = cropFixed8k "end"
    ∧ cropFixed8k "overworld" = (⟨1220, 620, 1000, 1000⟩, 1000)
    ∧ cropFixed8k "end" = (⟨1220, 620, 1000, 1000⟩, 1000)
    ∧ (cropSized "overworld" 8).2 = 1000 := by
  have hcrop : cropSized "overworld" 8 = (⟨1220, 620, 1000, 1000⟩, 1000) := by
    simp only [cropSized, jsRound]
    norm_num [Prod.ext_iff, CropParams.mk.injEq]
  refine ⟨?_, ?_, rfl, rfl, ?_⟩
  · exact hcrop
  · exact hcrop
  · rw [hcrop]

/-- C4 counterexample: after two same-millisecond submissions with equal seed and
dimension (which collide on one job id), the first completion makes the job
terminal (ready, counter 1); applying the completion step for the same job id a
second time, with the same outcome, leaves the status at ready but decrements the
in-flight counter a second time, from 1 to 0. -/
theorem c4_counterexample :
    statusOf (runEvents 3 [.submit reqA 1000, .submit reqA 1000,
        .complete 0 (.ok "u" "f.png") 2000]) jidA = some "ready"
    ∧ (runEvents 3 [.submit reqA 1000, .submit reqA 1000,
        .complete 0 (.ok "u" "f.png") 2000]).activeJobs = 1
    ∧ statusOf (runEvents 3 [.submit reqA 1000, .submit reqA 1000,
        .complete 0 (.ok "u" "f.png") 2000, .complete 0 (.ok "u" "f.png") 3000]) jidA
        = some "ready"
    ∧ (runEvents 3 [.submit reqA 1000, .submit reqA 1000,
        .complete 0 (.ok "u" "f.png") 2000, .complete 0 (.ok "u" "f.png") 3000]).activeJobs
        = 0 := by
  decide

/-- C4 amended: the code has no per-id idempotency guard; instead, each completion
settles one pending promise and decrements the counter exactly once for that
promise.  A second completion for the same job id exists only when a colliding
duplicate submission created a second promise, and it then decrements again,
matching its own admission: in every reachable state the counter equals the number
of unsettled promises, and settling any of them removes exactly one promise and
subtracts exactly one from the counter. -/
theorem c4_amended (maxJobs : Nat) (s : ServerState) (h : Reachable maxJobs s) :
    s.activeJobs = (s.pending.length : Int)
    ∧ ∀ (idx : Nat) (out : GenOutcome) (ts : Nat), idx < s.pending.length →
        (completeStep s idx out ts).activeJobs = s.activeJobs - 1
        ∧ (completeStep s idx out ts).pending.length = s.pending.length - 1 := by
  obtain ⟨hlen, -, -⟩ := reachable_stateInv maxJobs s h
  refine ⟨hlen, ?_⟩
  intro idx out ts hidx
  have hjid : s.pending[idx]? = some s.pending[idx] := List.getElem?_eq_getElem hidx
  constructor
  · simp [completeStep, hjid]
  · simp [completeStep, hjid, List.length_eraseIdx_of_lt hidx]

/-- Witness for C4 amended: settling the single pending promise of a one-job state
decrements the counter by one. -/
theorem c4_witness :
    (completeStep (runEvents 3 [.submit reqA 1000]) 0 (.ok "u" "f.png") 2000).activeJobs
      = (runEvents 3 [.submit reqA 1000]).activeJobs - 1 :=
  ((c4_amended 3 (runEvents 3 [.submit reqA 1000]) ⟨[.submit reqA 1000], rfl⟩).2
    0 (.ok "u" "f.png") 2000 (by decide)).1

/-- C5 counterexample: with two colliding same-millisecond submissions, the shared
record first reaches the terminal status ready, and the second completion then
moves it to the other terminal status failed: a reachable sequence of operations
does move a job between terminal states. -/
theorem c5_counterexample :
    statusOf (runEvents 3 [.submit reqA 1000, .submit reqA 1000,
        .complete 0 (.ok "u" "f.png") 2000]) jidA = some "ready"
    ∧ statusOf (runEvents 3 [.submit reqA 1000, .submit reqA 1000,
        .complete 0 (.ok "u" "f.png") 2000, .complete 0 (.fail "boom") 3000]) jidA
        = some "failed" := by
  decide

/-- C5 amended: a job id is absent at server start; the first write ever observed
for an id sets status processing (only a submission creates a record); a
completion writes only the terminal statuses ready or failed, never processing;
and a submission writes only processing.  The original claim fails only in that a
second write to the same id remains possible when job ids collide, which can
overwrite one terminal status with the other, and a later colliding submission
can reset a terminal record to processing. -/
theorem c5_amended (maxJobs : Nat) (s : ServerState) (h : Reachable maxJobs s)
    (e : Event) (jid : String) :
    statusOf initState jid = none
    ∧ (statusOf s jid = none → ∀ st, statusOf (step maxJobs s e) jid = some st →
        st = "processing")
    ∧ (∀ (idx : Nat) (out : GenOutcome) (ts : Nat) (st : String), e = .complete idx out ts →
        statusOf (step maxJobs s e) jid = some st →
        statusOf s jid = some st ∨ st = "ready" ∨ st = "failed")
    ∧ (∀ (req : SubmitRequest) (ts : Nat) (st : String), e = .submit req ts →
        statusOf (step maxJobs s e) jid = some st →
        statusOf s jid = some st ∨ st = "processing") := by
  obtain ⟨-, -, hpend⟩ := reachable_stateInv maxJobs s h
  refine ⟨rfl, ?_, ?_, ?_⟩
  · intro hnone st hst
    have hmg : mapGet s.jobs jid = none := by
      simpa [statusOf] using hnone
    cases e with
    | submit req ts =>
      simp only [step] at hst
      by_cases h1 : isValidSeed req.seed
      · by_cases h2 : isValidDimension (req.dimension.getD "overworld")
        · by_cases h3 : (maxJobs : Int) ≤ s.activeJobs
          · rw [handleGenerate_full maxJobs s req ts h1 h2 h3] at hst
            simp [statusOf, hmg] at hst
          · rw [handleGenerate_accepted maxJobs s req ts h1 h2 (by omega)] at hst
            by_cases hj : generateJobId (req.seed.getD (.str ""))
                (normalizeDimension (req.dimension.getD "overworld")) ts = jid
            · rw [hj] at hst
              simp only [statusOf, mapGet_mapSet_self, Option.map] at hst
              have hst2 : (newRecord (req.seed.getD (.str ""))
                  (normalizeDimension (req.dimension.getD "overworld")) ts).status = st := by
                exact Option.some.inj hst
              exact hst2.symm
            · simp only [statusOf, mapGet_mapSet_ne _ _ _ _ hj] at hst
              simp [hmg] at hst
        · simp only [handleGenerate, h1, h2, Bool.not_true, Bool.not_false,
            Bool.false_eq_true, if_false, if_true] at hst
          simp [statusOf, hmg] at hst
      · simp only [handleGenerate, h1, Bool.not_false, if_true] at hst
        simp [statusOf, hmg] at hst
    | complete idx out ts =>
      simp only [step, completeStep] at hst
      cases hidx : s.pending[idx]? with
      | none =>
        rw [hidx] at hst
        simp [statusOf, hmg] at hst
      | some jid2 =>
        rw [hidx] at hst
        by_cases hj : jid2 = jid
        · subst hj
          obtain ⟨hlt, hget⟩ := List.getElem?_eq_some.mp hidx
          have hmem : jid2 ∈ s.pending := hget ▸ s.pending.getElem_mem hlt
          have hsome := hpend jid2 hmem
          rw [hmg] at hsome
          exact Bool.noConfusion hsome
        · simp only [statusOf, mapGet_mapSet_ne _ _ _ _ hj] at hst
          simp [hmg] at hst
  · intro idx out ts st he hst
    subst he
    simp only [step, completeStep] at hst
    cases hidx : s.pending[idx]? with
    | none => rw [hidx] at hst; exact Or.inl hst
    | some jid2 =>
      rw [hidx] at hst
      by_cases hj : jid2 = jid
      · subst hj
        simp only [statusOf, mapGet_mapSet_self, Option.map] at hst
        have hst2 : (completionRecord (mapGet s.jobs jid2) out ts).status = st :=
          Option.some.inj hst
        cases out with
        | ok u f => exact Or.inr (Or.inl hst2.symm)
        | fail m => exact Or.inr (Or.inr hst2.symm)
        | rejectedPromise m => exact Or.inr (Or.inr hst2.symm)
      · simp only [statusOf, mapGet_mapSet_ne _ _ _ _ hj] at hst
        exact Or.inl hst
  · intro req ts st he hst
    subst he
    simp only [step] at hst
    by_cases h1 : isValidSeed req.seed
    · by_cases h2 : isValidDimension (req.dimension.getD "overworld")
      · by_cases h3 : (maxJobs : Int) ≤ s.activeJobs
        · rw [handleGenerate_full maxJobs s req ts h1 h2 h3] at hst
          exact Or.inl hst
        · rw [handleGenerate_accepted maxJobs s req ts h1 h2 (by omega)] at hst
          by_cases hj : generateJobId (req.seed.getD (.str ""))
              (normalizeDimension (req.dimension.getD "overworld")) ts = jid
          · rw [hj] at hst
            simp only [statusOf, mapGet_mapSet_self, Option.map] at hst
            exact Or.inr (Option.some.inj hst).symm
          · simp only [statusOf, mapGet_mapSet_ne _ _ _ _ hj] at hst
            exact Or.inl hst
      · simp only [handleGenerate, h1, h2, Bool.not_true, Bool.not_false,
          Bool.false_eq_true, if_false, if_true] at hst
        exact Or.inl hst
    · simp only [handleGenerate, h1, Bool.not_false, if_true] at hst
      exact Or.inl hst

/-- Witness for C5 amended: the very first submission writes status processing. -/
theorem c5_witness : ("processing" : String) = "processing" :=
  (c5_amended 3 initState ⟨[], rfl⟩ (.submit reqA 1000) jidA).2.1 rfl
    "processing" (by decide)

/-- C6 counterexample: a well-formed submission carrying a world-size field with
the out-of-range value 17 is admitted, a job record is created and the in-flight
counter is incremented; it is not rejected as invalid input, although isValidSize
classifies 17 as invalid. -/
theorem c6_counterexample :
    isValidSize 17 = false
    ∧ (handleGenerate 3 initState ⟨some (.str "12345"), some "overworld", some 17⟩ 1000).1
        = .accepted jidA
    ∧ (handleGenerate 3 initState ⟨some (.str "12345"), some "overworld", some 17⟩
        1000).2.jobs.length = 1
    ∧ (handleGenerate 3 initState ⟨some (.str "12345"), some "overworld", some 17⟩
        1000).2.activeJobs = 1 := by
  decide

/-- C6 amended: the submission handler validates only seed and dimension and is
entirely independent of the world-size field, so an out-of-range size such as 17
is admitted rather than rejected; the isValidSize helper, which does classify 17
as invalid and accepts exactly the integers 2 through 16, exists in utils.js but
is never invoked by the server. -/
theorem c6_amended (maxJobs : Nat) (s : ServerState) (req : SubmitRequest) (ts : Nat)
    (x y : Option Int) :
    handleGenerate maxJobs s { req with size := x } ts
      = handleGenerate maxJobs s { req with size := y } ts
    ∧ isValidSize 17 = false
    ∧ ∀ n : Int, isValidSize n = true ↔ 2 ≤ n ∧ n ≤ 16 := by
  refine ⟨rfl, rfl, ?_⟩
  intro n
  simp [isValidSize]

/-- Witness for C6 amended: concrete size fields 17 and none give identical
handler results. -/
theorem c6_witness :
    handleGenerate 3 initState { reqA with size := some 17 } 1000
      = handleGenerate 3 initState { reqA with size := none } 1000 :=
  (c6_amended 3 initState reqA 1000 (some 17) none).1

/-- C7 counterexample: a job whose generateMap promise is rejected (so that the
.catch handler of server.js completes it) ends failed with no retryable flag in
its record, and the status endpoint answers without a retryable flag. -/
theorem c7_counterexample :
    statusOf (runEvents 3 [.submit reqA 1000,
        .complete 0 (.rejectedPromise "boom") 2000]) jidA = some "failed"
    ∧ (mapGet (runEvents 3 [.submit reqA 1000,
        .complete 0 (.rejectedPromise "boom") 2000]).jobs jidA).map (·.retryable)
        = some none
    ∧ handleStatus (runEvents 3 [.submit reqA 1000,
        .complete 0 (.rejectedPromise "boom") 2000]) jidA
        = .found "failed" none none (some "GENERATION_FAILED") (some "boom") none := by
  decide

/-- C7 amended: a failure delivered through the render stage result object (the
.then path) always stores status failed with retryable true; a failure delivered
through the promise rejection handler (the .catch path) stores status failed but
leaves the retryable flag exactly as it was (absent for a job completed once);
and for any failed record the status endpoint exposes whatever retryable value
the record holds. -/
theorem c7_amended (s : ServerState) (jid : String) (j : JobRecord)
    (hm : mapGet s.jobs jid = some j) (hst : j.status = "failed") :
    handleStatus s jid = .found "failed" none none j.error j.message j.retryable
    ∧ (∀ (old : Option JobRecord) (m : String) (ts : Nat),
        (completionRecord old (.fail m) ts).status = "failed"
        ∧ (completionRecord old (.fail m) ts).retryable = some true)
    ∧ (∀ (old : Option JobRecord) (m : String) (ts : Nat),
        (completionRecord old (.rejectedPromise m) ts).status = "failed"
        ∧ (completionRecord old (.rejectedPromise m) ts).retryable
            = (old.getD { status := "" }).retryable) := by
  refine ⟨?_, fun old m ts => ⟨rfl, rfl⟩, fun old m ts => ⟨rfl, rfl⟩⟩
  simp [handleStatus, hm, hst]

/-- Witness for C7 amended, at the record left by a rejected-promise completion. -/
theorem c7_witness :
    handleStatus (runEvents 3 [.submit reqA 1000,
        .complete 0 (.rejectedPromise "boom") 2000]) jidA
      = .found "failed" none none
          ({ status := "failed", seed := some (.str "12345"),
             dimension := some "overworld", createdAt := some 1000,
             progress := some "Starting map generation...",
             completedAt := some 2000, error := some "GENERATION_FAILED",
             message := some "boom" } : JobRecord).error
          ({ status := "failed", seed := some (.str "12345"),
             dimension := some "overworld", createdAt := some 1000,
             progress := some "Starting map generation...",
             completedAt := some 2000, error := some "GENERATION_FAILED",
             message := some "boom" } : JobRecord).message
          ({ status := "failed", seed := some (.str "12345"),
             dimension := some "overworld", createdAt := some 1000,
             progress := some "Starting map generation...",
             completedAt := some 2000, error := some "GENERATION_FAILED",
             message := some "boom" } : JobRecord).retryable :=
  (c7_amended (runEvents 3 [.submit reqA 1000, .complete 0 (.rejectedPromise "boom") 2000])
    jidA _ (by decide) rfl).1

/-- C9 counterexample: two distinct submissions with equal seed, dimension and
millisecond timestamp are both admitted and receive the same job id; the second
record overwrites the first (the map holds one entry) while the counter counts
both. -/
theorem c9_counterexample :
    (handleGenerate 3 initState reqA 1000).1 = .accepted jidA
    ∧ (handleGenerate 3 (handleGenerate 3 initState reqA 1000).2 reqA 1000).1
        = .accepted jidA
    ∧ (handleGenerate 3 (handleGenerate 3 initState reqA 1000).2 reqA 1000).2.jobs.length = 1
    ∧ (handleGenerate 3 (handleGenerate 3 initState reqA 1000).2 reqA 1000).2.activeJobs
        = 2 := by
  decide

/-- C9 amended: job ids are unique per (seed, dimension, millisecond timestamp):
for a fixed seed and dimension, submissions at distinct timestamps always receive
distinct ids, and only submissions within the same millisecond can collide. -/
theorem c9_amended (seed : SeedVal) (dim : String) (t1 t2 : Nat) (h : t1 ≠ t2) :
    generateJobId seed dim t1 ≠ generateJobId seed dim t2 := by
  intro he
  simp only [generateJobId] at he
  exact h (natRepr_inj (string_append_left_cancel he))

/-- Witness for C9 amended at timestamps 1000 and 1001. -/
theorem c9_witness :
    generateJobId (.str "12345") "overworld" 1000
      ≠ generateJobId (.str "12345") "overworld" 1001 :=
  c9_amended (.str "12345") "overworld" 1000 1001 (by decide)

/-- C10: on a server with spare capacity and a valid seed, a submission with no
dimension field is admitted and its record stores dimension overworld in the
processing state; and a submission whose dimension matches one of overworld,
nether, end case-insensitively is admitted and its record stores the lowercased
dimension. -/
theorem c10_dimension_default (maxJobs : Nat) (s : ServerState) (req : SubmitRequest)
    (ts : Nat) (hseed : isValidSeed req.seed = true)
    (hroom : s.activeJobs < (maxJobs : Int)) :
    (req.dimension = none →
      ∃ jid st1, handleGenerate maxJobs s req ts = (.accepted jid, st1)
        ∧ ∃ r, mapGet st1.jobs jid = some r ∧ r.dimension = some "overworld"
            ∧ r.status = "processing")
    ∧ (∀ d : String, req.dimension = some d →
        validDimensions.contains (toLowerCase d) = true →
      ∃ jid st1, handleGenerate maxJobs s req ts = (.accepted jid, st1)
        ∧ ∃ r, mapGet st1.jobs jid = some r ∧ r.dimension = some (toLowerCase d)
            ∧ r.status = "processing") := by
  constructor
  · intro hdim
    have h2 : isValidDimension (req.dimension.getD "overworld") = true := by
      rw [hdim]; decide
    rw [handleGenerate_accepted maxJobs s req ts hseed h2 hroom]
    refine ⟨_, _, rfl, _, mapGet_mapSet_self _ _ _, ?_, rfl⟩
    rw [hdim]
    rfl
  · intro d hdim hvd
    have h2 : isValidDimension (req.dimension.getD "overworld") = true := by
      rw [hdim]
      exact hvd
    rw [handleGenerate_accepted maxJobs s req ts hseed h2 hroom]
    refine ⟨_, _, rfl, _, mapGet_mapSet_self _ _ _, ?_, rfl⟩
    rw [hdim]
    show some (normalizeDimension d) = some (toLowerCase d)
    have hne : toLowerCase d ≠ "" := by
      intro hempty
      rw [hempty] at hvd
      exact Bool.noConfusion hvd
    simp [normalizeDimension, hne]

/-- Witness for C10 at the mixed-case dimension OvErWoRlD. -/
theorem c10_witness :
    ∃ jid st1,
      handleGenerate 3 initState ⟨some (.str "12345"), some "OvErWoRlD", none⟩ 1000
        = (.accepted jid, st1)
      ∧ ∃ r, mapGet st1.jobs jid = some r
          ∧ r.dimension = some (toLowerCase "OvErWoRlD") ∧ r.status = "processing" :=
  (c10_dimension_default 3 initState ⟨some (.str "12345"), some "OvErWoRlD", none⟩ 1000
    (by decide) (by decide)).2 "OvErWoRlD" rfl (by decide)

end MCMap
